import Mathlib

/-!
# gin-crud: the request pipeline of `main.go`

A shallow embedding of `src/main.go`: the `Logger` and `ApiKeyAuthMiddleware`
middlewares, the `contains` helper, the `allowedKeys` global, and the six
route handlers registered in `main`.

What `main.go` imports is taken as follows.

* `gin.Context` is a record that is threaded through the handlers.  Its
  methods (`Next`, `Abort`, `JSON`, `BindJSON`, `GetHeader`, `Param`) and the
  response writer (`WriteHeader`, `WriteHeaderNow`, `Write`, `Status`) follow
  gin's implementation: a handler chain with an index, and a writer whose
  status can no longer change once the header has been written.
* The radix tree of the router and the JSON decoder are library code.  A
  request carries the answer of the router (one of the six registered
  routes, a trailing-slash recommendation, or no route) and the outcome of
  decoding its body (the value left in the `PostInput` and the error, if
  any).  The method of a request on a registered route is the route's.
* `handleHTTPRequest` answers a trailing-slash recommendation with a
  redirect before any handler runs (`RedirectTrailingSlash` is on in
  `gin.Default`).
* The `cors.New` stage registered first in `main` is the first handler of
  every chain; it follows `gin-contrib/cors` for the configuration of
  `main` (all origins allowed): it answers a preflight itself and lets every
  other request through.  Response headers are not part of the writer.
* Header names are canonicalised as `net/http` does, on receipt and in
  `Get`.
* The Prisma client (`demo/db`) is a parameter: a `Store` gives, for every
  operation, the pair `(value, error)` that `Exec` returns.
* `time.Now` and `time.Since` are readings of a `Clock` parameter.
* The two stages of `gin.Default` (gin's own logger and recovery) always
  call `c.Next()` and write nothing to the response; they are left out.
* `fmt.Printf` appends to `stdout`; every call into the store appends to
  `dbCalls`; the dispatcher appends every handler it invokes to `ran`.
-/

namespace GinCrud

/-! ## Data model -/

/-- Modelled from the spec: the `Post` entity of the generated package
`demo/db` (`db.PostModel`), which is not among the sources: an identifier,
a title, a published flag and a description. -/
structure Post where
  id : String
  title : String
  published : Bool
  desc : String
deriving DecidableEq, Repr

/-- The `PostInput` struct: the JSON body of create and update. -/
structure PostInput where
  Title : String
  Published : Bool
  Description : String
deriving DecidableEq, Repr

/-- The zero value of `PostInput` (`var input PostInput`). -/
def PostInput.zero : PostInput := { Title := "", Published := false, Description := "" }

/-- A Go `error` value: `none` is `nil`, `some msg` an error whose
`Error()` is `msg`. -/
abbrev GoError := Option String

/-- A call into the store, as issued by a handler. -/
inductive StoreCall where
  | findMany
  | createOne (title : String) (published : Bool) (desc : String)
  | findManyUpdate (id : String) (title : String) (published : Bool) (desc : String)
  | findUniqueDelete (id : String)
deriving DecidableEq, Repr

/-- Modelled from the spec: the Store collaborator (the Prisma client of
package `demo/db`, which is not among the sources).  Each operation gives
the pair that `Exec` returns: the value (a nil pointer is `none`) and the
error. -/
structure Store where
  findMany : List Post × GoError
  createOne : String → Bool → String → Option Post × GoError
  findManyUpdate : String → String → Bool → String → Option Post × GoError
  findUniqueDelete : String → Option Post × GoError

/-- What `c.JSON` is given to serialise, or a plain-text body. -/
inductive Body where
  | H (key : String) (value : String)
  | posts (ps : List Post)
  | post (p : Option Post)
  | text (s : String)
  | moved (location : String)
deriving DecidableEq, Repr

/-- The answer of the router: one of the routes registered in `main`; `tsr`
for a request of the given method that matches none but would match with
its trailing slash added or removed; `noRoute` for any other request of
the given method. -/
inductive Route where
  | getRoot
  | getPing
  | getPosts
  | postPosts
  | putPostsId
  | deletePostsId
  | tsr (method : String)
  | noRoute (method : String)
deriving DecidableEq, Repr

/-- The method of a request, given the answer of the router. -/
def Route.method : Route → String
  | .getRoot => "GET"
  | .getPing => "GET"
  | .getPosts => "GET"
  | .postPosts => "POST"
  | .putPostsId => "PUT"
  | .deletePostsId => "DELETE"
  | .tsr method => method
  | .noRoute method => method

/-- An incoming request, after routing.  The header lines are as received,
in order. -/
structure Request where
  host : String
  path : String
  route : Route
  header : List (String × String)
  params : List (String × String)
  decoded : PostInput
  decodeErr : GoError
deriving Repr

/-- Readings of the wall clock: what `time.Now()` returns when the Logger
starts and what `time.Since(t)` returns when it resumes. -/
structure Clock where
  now : Int
  since : Int → Int

/-- One line printed by the Logger. -/
inductive Observation where
  | latency (d : Int)
  | route (path : String)
  | status (code : Nat)
deriving DecidableEq, Repr

/-- The handler functions of the program. -/
inductive HandlerFunc where
  | cors
  | Logger
  | ApiKeyAuthMiddleware
  | getRoot
  | getPing
  | getPosts
  | postPosts
  | putPostsId
  | deletePostsId
deriving DecidableEq, Repr

/-- gin's response writer: the status (200 until set), whether the header
has been written, and the bodies written so far, in order. -/
structure ResponseWriter where
  status : Nat
  written : Bool
  body : List Body
deriving DecidableEq, Repr

/-- The `gin.Context` of one request, with the traces of the effects. -/
structure Context where
  request : Request
  handlers : List HandlerFunc
  index : Int
  writer : ResponseWriter
  stdout : List Observation
  dbCalls : List StoreCall
  ran : List HandlerFunc
deriving Repr

/-! ## gin: response writer and context -/

/-- The index `c.Abort()` sets: `abortIndex = math.MaxInt8 >> 1`. -/
def abortIndex : Int := 63

/-- The writer's `WriteHeader`: records the status unless the header has
already been written (gin warns and returns in that case). -/
def ResponseWriter.WriteHeader (code : Nat) (w : ResponseWriter) : ResponseWriter :=
  if code > 0 ∧ w.status ≠ code then
    if w.written then w else { w with status := code }
  else w

/-- The writer's `WriteHeaderNow`. -/
def ResponseWriter.WriteHeaderNow (w : ResponseWriter) : ResponseWriter :=
  if !w.written then { w with written := true } else w

/-- The writer's `Write`: forces the header, then appends the data. -/
def ResponseWriter.Write (data : Body) (w : ResponseWriter) : ResponseWriter :=
  let w := w.WriteHeaderNow
  { w with body := w.body ++ [data] }

/-- gin's `bodyAllowedForStatus`. -/
def bodyAllowedForStatus (status : Nat) : Bool :=
  if 100 ≤ status ∧ status ≤ 199 then false
  else if status = 204 then false
  else if status = 304 then false
  else true

/-- The method `c.Status(code)`. -/
def Context.Status (code : Nat) (c : Context) : Context :=
  { c with writer := c.writer.WriteHeader code }

/-- The method `c.Abort()`. -/
def Context.Abort (c : Context) : Context :=
  { c with index := abortIndex }

/-- The method `c.JSON(code, obj)`: sets the status and writes one body. -/
def Context.JSON (code : Nat) (obj : Body) (c : Context) : Context :=
  let c := c.Status code
  if !bodyAllowedForStatus code then
    { c with writer := c.writer.WriteHeaderNow }
  else
    { c with writer := c.writer.Write obj }

/-- The function `validHeaderFieldByte` of `net/textproto`: letters, digits
and the fifteen punctuation bytes of an HTTP token (given by their codes:
`!`, `#`, `$`, `%`, `&`, the apostrophe, `*`, `+`, `-`, `.`, `^`, `_`, the
backquote, `|`, `~`). -/
def validHeaderFieldByte (c : Char) : Bool :=
  c.isAlphanum ||
    [33, 35, 36, 37, 38, 39, 42, 43, 45, 46, 94, 95, 96, 124, 126].contains c.toNat

/-- The second loop of `canonicalMIMEHeaderKey`: upper case for the first
letter and after each dash, lower case elsewhere. -/
def canonicalise : Bool → List Char → List Char
  | _, [] => []
  | upper, c :: a =>
    let c :=
      if upper && ('a' ≤ c && c ≤ 'z') then c.toUpper
      else if !upper && ('A' ≤ c && c ≤ 'Z') then c.toLower
      else c
    c :: canonicalise (c == '-') a

/-- The function `canonicalMIMEHeaderKey` of `net/textproto`: a key with a
byte that is not a token byte is returned unchanged. -/
def canonicalMIMEHeaderKey (a : List Char) : List Char :=
  if a.any (fun c => !validHeaderFieldByte c && c != ' ') then a
  else if a.any (fun c => c == ' ') then a
  else canonicalise true a

/-- The quick check of `CanonicalMIMEHeaderKey`: whether the loop reaches a
letter of the wrong case before the end of the key and before a byte that
is not a token byte. -/
def wantsCanonical : Bool → List Char → Bool
  | _, [] => false
  | upper, c :: s =>
    if !validHeaderFieldByte c then false
    else if upper && ('a' ≤ c && c ≤ 'z') then true
    else if !upper && ('A' ≤ c && c ≤ 'Z') then true
    else wantsCanonical (c == '-') s

/-- The function `CanonicalMIMEHeaderKey` of `net/textproto`. -/
def CanonicalMIMEHeaderKey (s : String) : String :=
  if wantsCanonical true s.data then ⟨canonicalMIMEHeaderKey s.data⟩ else s

/-- The entry `h[CanonicalMIMEHeaderKey(key)]` of the `http.Header` that the
server builds from the header lines: the values of the lines whose
canonical name is the canonical key, in order. -/
def Header.values (h : List (String × String)) (key : String) : List String :=
  (h.filter fun kv =>
    decide ((⟨canonicalMIMEHeaderKey kv.1.data⟩ : String) = CanonicalMIMEHeaderKey key)).map
      fun kv => kv.2

/-- The method `Header.Get(key)`: the first value, `""` when there is none. -/
def Header.Get (h : List (String × String)) (key : String) : String :=
  match Header.values h key with
  | [] => ""
  | v :: _ => v

/-- The method `c.GetHeader(key)`, which is `c.Request.Header.Get(key)`. -/
def Context.GetHeader (key : String) (c : Context) : String :=
  Header.Get c.request.header key

/-- The method `c.Param(key)`: the path parameter, `""` when absent. -/
def Context.Param (key : String) (c : Context) : String :=
  (c.request.params.lookup key).getD ""

/-- The method `c.AbortWithStatus(code)`. -/
def Context.AbortWithStatus (code : Nat) (c : Context) : Context :=
  let c := c.Status code
  let c := { c with writer := c.writer.WriteHeaderNow }
  c.Abort

/-- The method `c.BindJSON(&input)`: decodes the body into the input; on a
decode error it aborts with status 400 and returns the error.  The input
keeps whatever the decoder stored in it. -/
def Context.BindJSON (c : Context) : PostInput × GoError × Context :=
  match c.request.decodeErr with
  | some err => (c.request.decoded, some err, c.AbortWithStatus 400)
  | none => (c.request.decoded, none, c)

/-- The function `fmt.Printf`, one observation per call. -/
def printf (o : Observation) (c : Context) : Context :=
  { c with stdout := c.stdout ++ [o] }

/-- Records a call into the store. -/
def Context.exec (call : StoreCall) (c : Context) : Context :=
  { c with dbCalls := c.dbCalls ++ [call] }

/-- The function `http.Redirect` with gin's writer: the status, and for a
`GET` the short note with the link (the `Location` header is not part of
the writer). -/
def httpRedirect (location : String) (code : Nat) (c : Context) : Context :=
  let c := c.Status code
  if c.request.route.method = "GET" then
    { c with writer := c.writer.Write (.moved location) }
  else c

/-- gin's `redirectRequest`: 301 for a `GET`, 307 for any other method. -/
def redirectRequest (location : String) (c : Context) : Context :=
  let code := if c.request.route.method ≠ "GET" then 307 else 301
  let c := httpRedirect location code c
  { c with writer := c.writer.WriteHeaderNow }

/-- gin's `redirectTrailingSlash`, without an `X-Forwarded-Prefix` header:
the path with its trailing slash removed, or added when it has none. -/
def redirectTrailingSlash (c : Context) : Context :=
  let p := c.request.path
  let location := if p.length > 1 ∧ p.back = '/' then p.dropRight 1 else p ++ "/"
  redirectRequest location c

/-- The handler `cors.New(...)` of `gin-contrib/cors` (`applyCors`) for the
configuration of `main`: every origin is valid, so there is no 403; a
request without `Origin`, or whose origin is its own host, is not a CORS
request; an `OPTIONS` request is answered as a preflight with 204 and
aborted; any other request only gets response headers. -/
def cors (c : Context) : Context :=
  let origin := c.GetHeader "Origin"
  if origin.length = 0 then
    c
  else
    let host := c.request.host
    if origin = "http://" ++ host ∨ origin = "https://" ++ host then
      c
    else if c.request.route.method = "OPTIONS" then
      c.AbortWithStatus 204
    else
      c

/-! ## `main.go` -/

/-- The `Logger` middleware. -/
def Logger (clock : Clock) (next : Context → Option Context) (c : Context) :
    Option Context := do
  let t := clock.now
  -- before request
  let c ← next c
  -- after request
  let latency := clock.since t
  let c := printf (.latency latency) c
  -- access the router information
  let route := c.request.path
  let c := printf (.route route) c
  -- access the status we are sending
  let status := c.writer.status
  let c := printf (.status status) c
  pure c

/-- The global `allowedKeys`. -/
def allowedKeys : List String := ["ELITE"]

/-- The function `contains`. -/
def contains : List String → String → Bool
  | [], _ => false
  | v :: slice, item => if v = item then true else contains slice item

/-- The `ApiKeyAuthMiddleware` middleware. -/
def ApiKeyAuthMiddleware (next : Context → Option Context) (c : Context) :
    Option Context :=
  let key := c.GetHeader "SPITFIRE-API-KEY"
  if key = "" then
    let c := c.JSON 401 (.H "message" "Unauthorized")
    let c := c.Abort
    some c
  else if !contains allowedKeys key then
    let c := c.JSON 401 (.H "message" "Unauthorized")
    let c := c.Abort
    some c
  else
    next c

/-- The handler of `GET /`. -/
def getRoot (c : Context) : Context :=
  c.JSON 200 (.H "message" "Hello World!")

/-- The handler of `GET /ping`. -/
def getPing (c : Context) : Context :=
  c.JSON 200 (.H "message" "Server is running!")

/-- The handler of `GET /posts`. -/
def getPosts (client : Store) (c : Context) : Context :=
  let c := c.exec .findMany
  let posts := client.findMany.1
  let err := client.findMany.2
  let c := match err with
    | some e => c.JSON 500 (.H "error" e)
    | none => c
  c.JSON 200 (.posts posts)

/-- The handler of `POST /posts`. -/
def postPosts (client : Store) (c : Context) : Context :=
  let (input, err, c) := c.BindJSON
  let c := match err with
    | some e => c.JSON 400 (.H "error" e)
    | none => c
  let title := input.Title
  let published := input.Published
  let description := input.Description
  if title = "" then
    let err := "title cannot be empty"
    c.JSON 400 (.H "error" err)
  else
    let c := c.exec (.createOne title published description)
    let post := (client.createOne title published description).1
    let err := (client.createOne title published description).2
    let c := match err with
      | some e => c.JSON 500 (.H "error" e)
      | none => c
    c.JSON 200 (.post post)

/-- The handler of `PUT /posts/:id`. -/
def putPostsId (client : Store) (c : Context) : Context :=
  let (input, err, c) := c.BindJSON
  match err with
  | some e => c.JSON 400 (.H "error" e)
  | none =>
    let title := input.Title
    let published := input.Published
    let description := input.Description
    if title = "" then
      let err := "title cannot be empty"
      c.JSON 400 (.H "error" err)
    else
      let postID := c.Param "id"
      let c := c.exec (.findManyUpdate postID title published description)
      let post := (client.findManyUpdate postID title published description).1
      let err := (client.findManyUpdate postID title published description).2
      match err with
      | some e => c.JSON 500 (.H "error" e)
      | none => c.JSON 200 (.post post)

/-- The handler of `DELETE /posts/:id`. -/
def deletePostsId (client : Store) (c : Context) : Context :=
  let postID := c.Param "id"
  let c := c.exec (.findUniqueDelete postID)
  let post := (client.findUniqueDelete postID).1
  let err := (client.findUniqueDelete postID).2
  let c := match err with
    | some e => c.JSON 500 (.H "error" e)
    | none => c
  c.JSON 200 (.post post)

/-! ## gin: dispatch -/

/-- What the program depends on besides the request. -/
structure Env where
  clock : Clock
  client : Store

/-- Invokes one handler function; `next` is what `c.Next()` does inside it. -/
def invoke (env : Env) (next : Context → Option Context) :
    HandlerFunc → Context → Option Context
  | .cors, c => some (cors c)
  | .Logger, c => Logger env.clock next c
  | .ApiKeyAuthMiddleware, c => ApiKeyAuthMiddleware next c
  | .getRoot, c => some (getRoot c)
  | .getPing, c => some (getPing c)
  | .getPosts, c => some (getPosts env.client c)
  | .postPosts, c => some (postPosts env.client c)
  | .putPostsId, c => some (putPostsId env.client c)
  | .deletePostsId, c => some (deletePostsId env.client c)

/-- The loop of `c.Next()`, entered after the first `c.index++`:
`for c.index < len(c.handlers) { c.handlers[c.index](c); c.index++ }`.
A handler that calls `c.Next()` re-enters the loop one handler further.
The fuel bounds the number of loop entries; `none` is out of fuel. -/
def nextLoop (env : Env) : Nat → Context → Option Context
  | 0, _ => none
  | fuel + 1, c =>
    if c.index < c.handlers.length then
      match c.handlers[c.index.toNat]? with
      | none => none
      | some h =>
        match invoke env (fun c => nextLoop env fuel { c with index := c.index + 1 }) h
            { c with ran := c.ran ++ [h] } with
        | none => none
        | some c => nextLoop env fuel { c with index := c.index + 1 }
    else some c

/-- The method `c.Next()`. -/
def Context.Next (env : Env) (fuel : Nat) (c : Context) : Option Context :=
  nextLoop env fuel { c with index := c.index + 1 }

/-- The middlewares registered with `r.Use`, in order. -/
def middleware : List HandlerFunc := [.cors, .Logger, .ApiKeyAuthMiddleware]

/-- The handler chain of a route: the middlewares, then the route's handler;
the middlewares alone (`allNoRoute`) for an unmatched request. -/
def Route.handlers : Route → List HandlerFunc
  | .getRoot => middleware ++ [.getRoot]
  | .getPing => middleware ++ [.getPing]
  | .getPosts => middleware ++ [.getPosts]
  | .postPosts => middleware ++ [.postPosts]
  | .putPostsId => middleware ++ [.putPostsId]
  | .deletePostsId => middleware ++ [.deletePostsId]
  | .tsr _ => middleware
  | .noRoute _ => middleware

/-- The handler function registered for a route, if any. -/
def Route.handler : Route → Option HandlerFunc
  | .getRoot => some .getRoot
  | .getPing => some .getPing
  | .getPosts => some .getPosts
  | .postPosts => some .postPosts
  | .putPostsId => some .putPostsId
  | .deletePostsId => some .deletePostsId
  | .tsr _ => none
  | .noRoute _ => none

/-- The context of a fresh request (`c.reset()`). -/
def Context.reset (req : Request) : Context :=
  { request := req
    handlers := req.route.handlers
    index := -1
    writer := { status := 200, written := false, body := [] }
    stdout := []
    dbCalls := []
    ran := [] }

/-- gin's `serveError(c, 404, default404Body)` for an unmatched request. -/
def serveError (env : Env) (c : Context) : Option Context := do
  let c := { c with writer := { c.writer with status := 404 } }
  let c ← c.Next env (c.handlers.length + 1)
  if c.writer.written then
    pure c
  else if c.writer.status = 404 then
    pure { c with writer := c.writer.Write (.text "404 page not found") }
  else
    pure { c with writer := c.writer.WriteHeaderNow }

/-- gin's `handleHTTPRequest`, from the answer of the router on: a matched
route runs its chain; a trailing-slash recommendation is redirected unless
the method is `CONNECT` or the path is `/`; anything else is served as 404
through the chain of the middlewares. -/
def handleHTTPRequest (env : Env) (req : Request) : Option Context :=
  let c := Context.reset req
  match req.route with
  | .tsr method =>
    if method ≠ "CONNECT" ∧ req.path ≠ "/" then
      some (redirectTrailingSlash c)
    else serveError env c
  | .noRoute _ => serveError env c
  | _ => do
    let c ← c.Next env (c.handlers.length + 1)
    pure { c with writer := c.writer.WriteHeaderNow }

/-! ## Sample inputs -/

/-- A store that creates, updates and deletes successfully and lists nothing. -/
def okStore : Store :=
  { findMany := ([], none)
    createOne := fun t p d => (some { id := "p1", title := t, published := p, desc := d }, none)
    findManyUpdate := fun i t p d => (some { id := i, title := t, published := p, desc := d }, none)
    findUniqueDelete := fun i => (some { id := i, title := "old", published := false, desc := "" }, none) }

/-- A store whose every operation fails with `db down`. -/
def downStore : Store :=
  { findMany := ([], some "db down")
    createOne := fun _ _ _ => (none, some "db down")
    findManyUpdate := fun _ _ _ _ => (none, some "db down")
    findUniqueDelete := fun _ => (none, some "db down") }

/-- A clock that reads 100 at the start and 107 afterwards. -/
def sampleClock : Clock := { now := 100, since := fun t => 107 - t }

/-- A request for the given route with the given headers and body outcome. -/
def mkRequest (path : String) (route : Route) (header : List (String × String))
    (decoded : PostInput) (decodeErr : GoError) : Request :=
  { host := "localhost:1234", path := path, route := route, header := header,
    params := [("id", "42")],
    decoded := decoded, decodeErr := decodeErr }

/-- The environment of the examples: the sample clock and a working store. -/
def okEnv : Env := { clock := sampleClock, client := okStore }

/-- The environment of the examples in which the store is down. -/
def downEnv : Env := { clock := sampleClock, client := downStore }

/-- The message of the decoder for a body whose `published` is a string:
the decoder reports the type error and goes on with the other fields. -/
def unmarshalTypeError : String :=
  "json: cannot unmarshal string into Go struct field PostInput.published of type bool"

/-- The header list of a request that carries the key `ELITE`. -/
def eliteHeader : List (String × String) := [("SPITFIRE-API-KEY", "ELITE")]

/-! ## Vocabulary of the statements -/

/-- The value `c.GetHeader("SPITFIRE-API-KEY")` of a request. -/
def Request.apiKey (req : Request) : String :=
  Header.Get req.header "SPITFIRE-API-KEY"

/-- The request carries the header, and its value is a configured key. -/
def Request.authenticated (req : Request) : Prop :=
  Header.values req.header "SPITFIRE-API-KEY" ≠ [] ∧ req.apiKey ∈ allowedKeys

/-- The request has no header, an empty one, or one that is not a
configured key. -/
def Request.unauthenticated (req : Request) : Prop :=
  Header.values req.header "SPITFIRE-API-KEY" = [] ∨ req.apiKey = "" ∨
    req.apiKey ∉ allowedKeys

/-- The request is answered by the trailing-slash redirect, before any
handler runs. -/
def Request.redirected (req : Request) : Prop :=
  ∃ method, req.route = .tsr method ∧ method ≠ "CONNECT" ∧ req.path ≠ "/"

/-- The request is a preflight that the `cors` stage answers itself: an
`OPTIONS` request with an `Origin` that is not its own host. -/
def Request.preflight (req : Request) : Prop :=
  ¬ (Header.Get req.header "Origin").length = 0 ∧
    ¬ (Header.Get req.header "Origin" = "http://" ++ req.host ∨
      Header.Get req.header "Origin" = "https://" ++ req.host) ∧
    req.route.method = "OPTIONS"

/-- The context in which the route handler `h` is entered when the three
middlewares have passed the request on. -/
def entry (req : Request) (h : HandlerFunc) : Context :=
  { Context.reset req with
    index := 3, ran := [.cors, .Logger, .ApiKeyAuthMiddleware, h] }

/-- What remains to be done when the route handler returns with `c`: the
three loops of `Next` step past the end of the chain, the Logger prints,
and the header is flushed. -/
def finish (env : Env) (c : Context) : Context :=
  { c with
    index := c.index + 1 + 1 + 1
    stdout := c.stdout ++ [.latency (env.clock.since env.clock.now), .route c.request.path,
      .status c.writer.status]
    writer := c.writer.WriteHeaderNow }

/-- What a route handler leaves alone: the request, the chain and the
traces of the middlewares; the index stays or becomes `abortIndex`. -/
def Frame (c c0 : Context) : Prop :=
  c0.request = c.request ∧ c0.handlers = c.handlers ∧
    (c0.index = c.index ∨ c0.index = abortIndex) ∧ c0.stdout = c.stdout ∧ c0.ran = c.ran

/-! ## The key check -/

theorem contains_iff_mem (slice : List String) (item : String) :
    contains slice item = true ↔ item ∈ slice := by
  induction slice with
  | nil => simp [contains]
  | cons v rest ih =>
    unfold contains
    by_cases h : v = item
    · simp [h]
    · simp [h, ih, Ne.symm h]

theorem contains_allowedKeys (key : String) :
    contains allowedKeys key = true ↔ key = "ELITE" := by
  rw [contains_iff_mem]
  simp [allowedKeys]

theorem apiKey_of_authenticated (req : Request) (ha : req.authenticated) :
    req.apiKey = "ELITE" := by
  simpa [allowedKeys] using ha.2

theorem apiKey_of_unauthenticated (req : Request) (hu : req.unauthenticated) :
    req.apiKey ≠ "ELITE" := by
  rcases hu with h | h | h
  · simp [Request.apiKey, Header.Get, h]
  · simp [h]
  · simpa [allowedKeys] using h

/-! ## The stages in front of the key check -/

theorem cors_pass (c : Context) (h : ¬ c.request.preflight) : cors c = c := by
  unfold Request.preflight at h
  unfold cors Context.GetHeader
  by_cases h1 : (Header.Get c.request.header "Origin").length = 0
  · simp [h1]
  · by_cases h2 : Header.Get c.request.header "Origin" = "http://" ++ c.request.host ∨
        Header.Get c.request.header "Origin" = "https://" ++ c.request.host
    · simp only [h1, h2, if_true, if_false]
    · have h3 : ¬ c.request.route.method = "OPTIONS" := fun e => h ⟨h1, h2, e⟩
      simp only [h1, h2, h3, if_false]

theorem cors_abort (c : Context) (h : c.request.preflight) : cors c = c.AbortWithStatus 204 := by
  obtain ⟨h1, h2, h3⟩ := h
  unfold cors Context.GetHeader
  simp only [h1, h2, h3, if_true, if_false]

theorem not_preflight_of_handler (req : Request) (h : HandlerFunc)
    (hr : req.route.handler = some h) : ¬ req.preflight := by
  rintro ⟨-, -, hm⟩
  cases hq : req.route <;> simp [hq, Route.handler, Route.method] at hr hm

theorem not_redirected_of_handler (req : Request) (h : HandlerFunc)
    (hr : req.route.handler = some h) : ¬ req.redirected := by
  rintro ⟨m, hm, -⟩
  simp [hm, Route.handler] at hr

/-! ## The pipeline, by outcome of the key check -/

theorem handle_redirected (env : Env) (req : Request) (h : req.redirected) :
    ∃ c, handleHTTPRequest env req = some c ∧
      (c.writer.status = 301 ∨ c.writer.status = 307) ∧
      c.ran = [] ∧ c.dbCalls = [] ∧ c.stdout = [] := by
  obtain ⟨m, hm, h1, h2⟩ := h
  by_cases hg : m = "GET" <;>
  simp [handleHTTPRequest, hm, h1, h2, hg, redirectTrailingSlash, redirectRequest, httpRedirect,
    Context.reset, Context.Status, ResponseWriter.WriteHeader, ResponseWriter.Write,
    ResponseWriter.WriteHeaderNow, Route.method]

theorem handle_preflight (env : Env) (req : Request) (hr : ¬ req.redirected)
    (hp : req.preflight) :
    ∃ c, handleHTTPRequest env req = some c ∧
      c.writer = { status := 204, written := true, body := [] } ∧
      c.ran = [.cors] ∧ c.dbCalls = [] ∧ c.stdout = [] := by
  have hc := fun c (e : c.request = req) => cors_abort c (e ▸ hp)
  have hm := hp.2.2
  cases hq : req.route <;> simp [hq, Route.method] at hm
  · subst hm
    have hr2 : req.path = "/" := by
      by_contra hh
      exact hr ⟨_, hq, by decide, hh⟩
    simp [handleHTTPRequest, serveError, hq, hr2, Context.reset, Route.handlers, middleware,
      Context.Next, nextLoop, invoke, hc, Context.AbortWithStatus, Context.Abort, abortIndex,
      Context.Status, ResponseWriter.WriteHeader, ResponseWriter.WriteHeaderNow]
  · subst hm
    simp [handleHTTPRequest, serveError, hq, Context.reset, Route.handlers, middleware,
      Context.Next, nextLoop, invoke, hc, Context.AbortWithStatus, Context.Abort, abortIndex,
      Context.Status, ResponseWriter.WriteHeader, ResponseWriter.WriteHeaderNow]

theorem handle_rejected (env : Env) (req : Request) (h : req.apiKey ≠ "ELITE")
    (hr : ¬ req.redirected) (hp : ¬ req.preflight) :
    ∃ c, handleHTTPRequest env req = some c ∧
      c.writer = { status := 401, written := true, body := [.H "message" "Unauthorized"] } ∧
      c.ran = [.cors, .Logger, .ApiKeyAuthMiddleware] ∧ c.dbCalls = [] ∧
      c.stdout = [.latency (env.clock.since env.clock.now), .route req.path, .status 401] := by
  have hc := fun c (e : c.request = req) => cors_pass c (e ▸ hp)
  unfold Request.apiKey at h
  have h2 : ¬ ("ELITE" = Header.Get req.header "SPITFIRE-API-KEY") := fun e => h e.symm
  have hr2 : ∀ m, req.route = .tsr m → ¬ (¬ m = "CONNECT" ∧ ¬ req.path = "/") :=
    fun m hm hh => hr ⟨m, hm, hh.1, hh.2⟩
  cases hq : req.route
  case tsr m =>
    have h3 := hr2 m hq
    by_cases he : Header.Get req.header "SPITFIRE-API-KEY" = "" <;>
    simp [handleHTTPRequest, serveError, hq, h3, Context.reset, Route.handlers, middleware,
      Context.Next, nextLoop, invoke, hc, Logger, ApiKeyAuthMiddleware, Context.GetHeader,
      contains, allowedKeys, Context.JSON, Context.Status, Context.Abort, abortIndex,
      ResponseWriter.WriteHeader, ResponseWriter.Write, ResponseWriter.WriteHeaderNow,
      bodyAllowedForStatus, printf, he, h, h2]
  all_goals
    by_cases he : Header.Get req.header "SPITFIRE-API-KEY" = "" <;>
    simp [handleHTTPRequest, serveError, hq, Context.reset, Route.handlers, middleware,
      Context.Next, nextLoop, invoke, hc, Logger, ApiKeyAuthMiddleware, Context.GetHeader,
      contains, allowedKeys, Context.JSON, Context.Status, Context.Abort, abortIndex,
      ResponseWriter.WriteHeader, ResponseWriter.Write, ResponseWriter.WriteHeaderNow,
      bodyAllowedForStatus, printf, he, h, h2]

/-! ## Route handlers and the rest of the chain -/

theorem getRoot_frame (c : Context) : Frame c (getRoot c) := by
  simp [Frame, getRoot, Context.JSON, Context.Status, bodyAllowedForStatus]

theorem getPing_frame (c : Context) : Frame c (getPing c) := by
  simp [Frame, getPing, Context.JSON, Context.Status, bodyAllowedForStatus]

theorem getPosts_frame (client : Store) (c : Context) : Frame c (getPosts client c) := by
  cases he : client.findMany.2 <;>
  simp [Frame, getPosts, he, Context.JSON, Context.Status, Context.exec, bodyAllowedForStatus]

theorem postPosts_frame (client : Store) (c : Context) : Frame c (postPosts client c) := by
  cases hd : c.request.decodeErr <;>
  by_cases ht : c.request.decoded.Title = "" <;>
  cases he : (client.createOne c.request.decoded.Title c.request.decoded.Published
    c.request.decoded.Description).2 <;>
  simp [Frame, postPosts, Context.BindJSON, Context.AbortWithStatus, Context.Abort, hd, ht, he,
    Context.JSON, Context.Status, Context.exec, bodyAllowedForStatus]

theorem putPostsId_frame (client : Store) (c : Context) : Frame c (putPostsId client c) := by
  cases hd : c.request.decodeErr <;>
  by_cases ht : c.request.decoded.Title = "" <;>
  cases he : (client.findManyUpdate (c.Param "id") c.request.decoded.Title
    c.request.decoded.Published c.request.decoded.Description).2 <;>
  simp [Frame, putPostsId, Context.BindJSON, Context.AbortWithStatus, Context.Abort, hd, ht, he,
    Context.JSON, Context.Status, Context.exec, bodyAllowedForStatus, Context.Param] <;>
  simp [Context.Param] at he <;> simp [he, Context.JSON, Context.Status, bodyAllowedForStatus]

theorem deletePostsId_frame (client : Store) (c : Context) :
    Frame c (deletePostsId client c) := by
  cases he : (client.findUniqueDelete (c.Param "id")).2 <;>
  simp [Frame, deletePostsId, he, Context.JSON, Context.Status, Context.exec,
    bodyAllowedForStatus, Context.Param] <;>
  simp [Context.Param] at he <;> simp [he, Context.JSON, Context.Status, bodyAllowedForStatus]

theorem WriteHeaderNow_status (w : ResponseWriter) : w.WriteHeaderNow.status = w.status := by
  unfold ResponseWriter.WriteHeaderNow
  split <;> rfl

theorem WriteHeaderNow_body (w : ResponseWriter) : w.WriteHeaderNow.body = w.body := by
  unfold ResponseWriter.WriteHeaderNow
  split <;> rfl

theorem handle_accepted_of (env : Env) (req : Request) (h : HandlerFunc)
    (hk : req.apiKey = "ELITE") (hr : req.route.handler = some h) (c0 : Context)
    (h0 : invoke env (fun _ => none) h (entry req h) = some c0)
    (hh : c0.handlers = req.route.handlers) (hi : 3 ≤ c0.index) :
    handleHTTPRequest env req = some (finish env c0) := by
  have hc := fun c (e : c.request = req) =>
    cors_pass c (e ▸ not_preflight_of_handler req h hr)
  unfold Request.apiKey at hk
  have i1 : ¬ (c0.index + 1 < 4) := by omega
  have i2 : ¬ (c0.index + 1 + 1 < 4) := by omega
  have i3 : ¬ (c0.index + 1 + 1 + 1 < 4) := by omega
  cases hq : req.route <;> simp [hq, Route.handler] at hr <;> subst hr <;>
  simp [invoke, entry, Context.reset, hq, Route.handlers, middleware] at h0 hh <;>
  subst h0 <;>
  simp [handleHTTPRequest, hq, Context.reset, Route.handlers, middleware, Context.Next,
    nextLoop, invoke, hc, Logger, ApiKeyAuthMiddleware, Context.GetHeader, contains,
    allowedKeys, printf, hk, finish, hh, i1, i2, i3]

theorem handle_accepted (env : Env) (req : Request) (h : HandlerFunc)
    (hk : req.apiKey = "ELITE") (hr : req.route.handler = some h) (f : Context → Context)
    (hf : ∀ next c, invoke env next h c = some (f c)) (hfr : ∀ c, Frame c (f c)) :
    handleHTTPRequest env req = some (finish env (f (entry req h))) := by
  obtain ⟨-, hh, hi, -, -⟩ := hfr (entry req h)
  apply handle_accepted_of env req h hk hr _ (hf _ _)
  · rw [hh]
    cases hq : req.route <;> simp [hq, Route.handler] at hr <;> subst hr <;>
    simp [entry, Context.reset, hq]
  · rcases hi with hi | hi <;> rw [hi] <;> simp [entry, abortIndex]

theorem handle_noRoute (env : Env) (req : Request) (hk : req.apiKey = "ELITE")
    (hn : req.route.handler = none) (hr : ¬ req.redirected) (hp : ¬ req.preflight) :
    ∃ c, handleHTTPRequest env req = some c ∧
      c.writer = { status := 404, written := true, body := [.text "404 page not found"] } ∧
      c.ran = [.cors, .Logger, .ApiKeyAuthMiddleware] ∧ c.dbCalls = [] ∧
      c.stdout = [.latency (env.clock.since env.clock.now), .route req.path, .status 404] := by
  have hc := fun c (e : c.request = req) => cors_pass c (e ▸ hp)
  have hr2 : ∀ m, req.route = .tsr m → ¬ (¬ m = "CONNECT" ∧ ¬ req.path = "/") :=
    fun m hm hh => hr ⟨m, hm, hh.1, hh.2⟩
  unfold Request.apiKey at hk
  cases hq : req.route <;> simp [hq, Route.handler] at hn
  case tsr m =>
    have h3 := hr2 m hq
    simp [handleHTTPRequest, serveError, hq, h3, Context.reset, Route.handlers, middleware,
      Context.Next, nextLoop, invoke, hc, Logger, ApiKeyAuthMiddleware, Context.GetHeader,
      contains, allowedKeys, ResponseWriter.Write, ResponseWriter.WriteHeaderNow, printf, hk]
  case noRoute m =>
    simp [handleHTTPRequest, serveError, hq, Context.reset, Route.handlers, middleware,
      Context.Next, nextLoop, invoke, hc, Logger, ApiKeyAuthMiddleware, Context.GetHeader,
      contains, allowedKeys, ResponseWriter.Write, ResponseWriter.WriteHeaderNow, printf, hk]

theorem handle_getRoot (env : Env) (req : Request) (hk : req.apiKey = "ELITE")
    (hr : req.route = .getRoot) :
    handleHTTPRequest env req = some (finish env (getRoot (entry req .getRoot))) :=
  handle_accepted env req .getRoot hk (by simp [hr, Route.handler]) getRoot (fun _ _ => rfl)
    getRoot_frame

theorem handle_getPing (env : Env) (req : Request) (hk : req.apiKey = "ELITE")
    (hr : req.route = .getPing) :
    handleHTTPRequest env req = some (finish env (getPing (entry req .getPing))) :=
  handle_accepted env req .getPing hk (by simp [hr, Route.handler]) getPing (fun _ _ => rfl)
    getPing_frame

theorem handle_getPosts (env : Env) (req : Request) (hk : req.apiKey = "ELITE")
    (hr : req.route = .getPosts) :
    handleHTTPRequest env req = some (finish env (getPosts env.client (entry req .getPosts))) :=
  handle_accepted env req .getPosts hk (by simp [hr, Route.handler]) (getPosts env.client)
    (fun _ _ => rfl) (getPosts_frame env.client)

theorem handle_postPosts (env : Env) (req : Request) (hk : req.apiKey = "ELITE")
    (hr : req.route = .postPosts) :
    handleHTTPRequest env req =
      some (finish env (postPosts env.client (entry req .postPosts))) :=
  handle_accepted env req .postPosts hk (by simp [hr, Route.handler]) (postPosts env.client)
    (fun _ _ => rfl) (postPosts_frame env.client)

theorem handle_putPostsId (env : Env) (req : Request) (hk : req.apiKey = "ELITE")
    (hr : req.route = .putPostsId) :
    handleHTTPRequest env req =
      some (finish env (putPostsId env.client (entry req .putPostsId))) :=
  handle_accepted env req .putPostsId hk (by simp [hr, Route.handler]) (putPostsId env.client)
    (fun _ _ => rfl) (putPostsId_frame env.client)

theorem handle_deletePostsId (env : Env) (req : Request) (hk : req.apiKey = "ELITE")
    (hr : req.route = .deletePostsId) :
    handleHTTPRequest env req =
      some (finish env (deletePostsId env.client (entry req .deletePostsId))) :=
  handle_accepted env req .deletePostsId hk (by simp [hr, Route.handler])
    (deletePostsId env.client) (fun _ _ => rfl) (deletePostsId_frame env.client)

/-- Every route handler is a total function of the context that does not
call `c.Next()` and satisfies the frame. -/
theorem route_handler_total (env : Env) (r : Route) (h : HandlerFunc)
    (hr : r.handler = some h) :
    ∃ f : Context → Context, (∀ next c, invoke env next h c = some (f c)) ∧
      ∀ c, Frame c (f c) := by
  cases r <;> simp [Route.handler] at hr <;> subst hr
  · exact ⟨getRoot, fun _ _ => rfl, getRoot_frame⟩
  · exact ⟨getPing, fun _ _ => rfl, getPing_frame⟩
  · exact ⟨getPosts env.client, fun _ _ => rfl, getPosts_frame env.client⟩
  · exact ⟨postPosts env.client, fun _ _ => rfl, postPosts_frame env.client⟩
  · exact ⟨putPostsId env.client, fun _ _ => rfl, putPostsId_frame env.client⟩
  · exact ⟨deletePostsId env.client, fun _ _ => rfl, deletePostsId_frame env.client⟩

/-- The trace of a request that passed the key check and has a route.  -/
theorem handle_accepted_trace (env : Env) (req : Request) (h : HandlerFunc)
    (hk : req.apiKey = "ELITE") (hr : req.route.handler = some h) :
    ∃ c, handleHTTPRequest env req = some c ∧
      c.ran = [.cors, .Logger, .ApiKeyAuthMiddleware, h] ∧
      c.stdout = [.latency (env.clock.since env.clock.now), .route req.path,
        .status c.writer.status] := by
  obtain ⟨f, hf, hfr⟩ := route_handler_total env req.route h hr
  obtain ⟨hreq, -, -, hout, hran⟩ := hfr (entry req h)
  refine ⟨_, handle_accepted env req h hk hr f hf hfr, ?_, ?_⟩
  · show (f (entry req h)).ran = _
    rw [hran]
    rfl
  · show (f (entry req h)).stdout ++ _ = _
    have hs : (finish env (f (entry req h))).writer.status = (f (entry req h)).writer.status :=
      WriteHeaderNow_status _
    rw [hout, hreq, hs]
    rfl

/-! ## The claims -/

/-- C1, refuted as stated: a `GET /ping/` without the header is answered
by the trailing-slash redirect with 301, and an `OPTIONS /posts` preflight
without the header is answered by the `cors` stage with 204; in neither
does `ApiKeyAuthMiddleware` run, and neither response is the 401. -/
theorem C1_not_every_request_gets_401 :
    (mkRequest "/ping/" (.tsr "GET") [] PostInput.zero none).unauthenticated ∧
    (∃ c, handleHTTPRequest okEnv
        (mkRequest "/ping/" (.tsr "GET") [] PostInput.zero none) = some c ∧
      c.writer.status = 301 ∧ HandlerFunc.ApiKeyAuthMiddleware ∉ c.ran) ∧
    (mkRequest "/posts" (.noRoute "OPTIONS") [("Origin", "http://example.com")]
      PostInput.zero none).unauthenticated ∧
    (∃ c, handleHTTPRequest okEnv
        (mkRequest "/posts" (.noRoute "OPTIONS") [("Origin", "http://example.com")]
          PostInput.zero none) = some c ∧
      c.writer.status = 204 ∧ HandlerFunc.ApiKeyAuthMiddleware ∉ c.ran) :=
  ⟨Or.inl rfl, ⟨_, rfl, rfl, by decide⟩, Or.inl rfl, ⟨_, rfl, rfl, by decide⟩⟩

/-- C1, amended: on a request whose `SPITFIRE-API-KEY` header is absent,
empty or not among `allowedKeys`, `ApiKeyAuthMiddleware` writes 401 with
the body `message: Unauthorized` and aborts, whatever the next stage is.
For every such request no route handler runs and the store is never
called.  For every such request that reaches the middleware, that is, one
that is neither answered by the trailing-slash redirect nor a preflight
answered by the `cors` stage, the response is that 401 with that single
body, and only the three middlewares have run. -/
theorem C1_unauthorized_is_rejected (env : Env) (req : Request)
    (hu : req.unauthenticated) :
    (∀ (next : Context → Option Context) (c : Context), c.request = req →
      ApiKeyAuthMiddleware next c
        = some (c.JSON 401 (.H "message" "Unauthorized")).Abort) ∧
    (∃ c, handleHTTPRequest env req = some c ∧ c.dbCalls = [] ∧
      ∀ h, req.route.handler = some h → h ∉ c.ran) ∧
    (¬ req.redirected → ¬ req.preflight →
      ∃ c, handleHTTPRequest env req = some c ∧
        c.writer.status = 401 ∧ c.writer.body = [.H "message" "Unauthorized"] ∧
        c.ran = [.cors, .Logger, .ApiKeyAuthMiddleware] ∧ c.dbCalls = []) := by
  have hne := apiKey_of_unauthenticated req hu
  refine ⟨?_, ?_, ?_⟩
  · intro next c hc
    unfold Request.apiKey at hne
    have h2 : ¬ ("ELITE" = Header.Get req.header "SPITFIRE-API-KEY") := fun e => hne e.symm
    by_cases he : Header.Get req.header "SPITFIRE-API-KEY" = "" <;>
    simp [ApiKeyAuthMiddleware, Context.GetHeader, hc, he, contains, allowedKeys, h2]
  · by_cases hr : req.redirected
    · obtain ⟨c, hc, -, hran, hdb, -⟩ := handle_redirected env req hr
      exact ⟨c, hc, hdb, fun h _ => by simp [hran]⟩
    · by_cases hp : req.preflight
      · obtain ⟨c, hc, -, hran, hdb, -⟩ := handle_preflight env req hr hp
        refine ⟨c, hc, hdb, fun h hh => ?_⟩
        exact absurd hp (not_preflight_of_handler req h hh)
      · obtain ⟨c, hc, -, hran, hdb, -⟩ := handle_rejected env req hne hr hp
        refine ⟨c, hc, hdb, fun h hh => ?_⟩
        cases hq : req.route <;> simp [hq, Route.handler] at hh <;> subst hh <;> simp [hran]
  · intro hr hp
    obtain ⟨c, hc, hw, hran, hdb, -⟩ := handle_rejected env req hne hr hp
    exact ⟨c, hc, by rw [hw], by rw [hw], hran, hdb⟩

/-- Witness of C1: `POST /posts` without the header, and with the key
`ELIT`, on a working store. -/
theorem C1_unauthorized_is_rejected_witness :
    (mkRequest "/posts" .postPosts [] ⟨"Hello", false, ""⟩ none).unauthenticated ∧
    (∃ c, handleHTTPRequest okEnv
        (mkRequest "/posts" .postPosts [] ⟨"Hello", false, ""⟩ none) = some c ∧
      c.writer.status = 401 ∧ c.writer.body = [.H "message" "Unauthorized"] ∧
      c.ran = [.cors, .Logger, .ApiKeyAuthMiddleware] ∧ c.dbCalls = []) ∧
    (∃ c, handleHTTPRequest okEnv
        (mkRequest "/posts" .postPosts [("SPITFIRE-API-KEY", "ELIT")] ⟨"Hello", false, ""⟩ none)
          = some c ∧
      c.writer.status = 401 ∧ c.writer.body = [.H "message" "Unauthorized"] ∧
      c.ran = [.cors, .Logger, .ApiKeyAuthMiddleware] ∧ c.dbCalls = []) :=
  ⟨Or.inl rfl,
   (C1_unauthorized_is_rejected okEnv
      (mkRequest "/posts" .postPosts [] ⟨"Hello", false, ""⟩ none) (Or.inl rfl)).2.2
      (not_redirected_of_handler _ .postPosts rfl) (not_preflight_of_handler _ .postPosts rfl),
   (C1_unauthorized_is_rejected okEnv
      (mkRequest "/posts" .postPosts [("SPITFIRE-API-KEY", "ELIT")] ⟨"Hello", false, ""⟩ none)
      (Or.inr (Or.inr (by decide)))).2.2
      (not_redirected_of_handler _ .postPosts rfl) (not_preflight_of_handler _ .postPosts rfl)⟩

/-- C2: when the header is present and its value is among `allowedKeys`,
`ApiKeyAuthMiddleware` does nothing but `c.Next()`: it returns what the next
stage returns.  On a request with a route, the route handler runs if and
only if the key is non-empty and `contains allowedKeys key` is true, which
with `allowedKeys = ["ELITE"]` is: if and only if the key is `ELITE`.  The
key is the value `c.GetHeader` gives, under any spelling of the header
name. -/
theorem C2_key_member_passes (env : Env) (req : Request) :
    (req.authenticated →
      ∀ (next : Context → Option Context) (c : Context), c.request = req →
        ApiKeyAuthMiddleware next c = next c) ∧
    (∀ h, req.route.handler = some h →
      ∃ c, handleHTTPRequest env req = some c ∧
        (h ∈ c.ran ↔ req.apiKey ≠ "" ∧ contains allowedKeys req.apiKey = true) ∧
        (h ∈ c.ran ↔ req.apiKey = "ELITE")) := by
  constructor
  · intro ha next c hc
    have hk := apiKey_of_authenticated req ha
    unfold Request.apiKey at hk
    simp [ApiKeyAuthMiddleware, Context.GetHeader, hc, hk, contains, allowedKeys]
  · intro h hr
    have hroute : h ≠ .cors ∧ h ≠ .Logger ∧ h ≠ .ApiKeyAuthMiddleware := by
      cases hq : req.route <;> simp [hq, Route.handler] at hr <;> subst hr <;> simp
    by_cases hk : req.apiKey = "ELITE"
    · obtain ⟨c, hc, hran, -⟩ := handle_accepted_trace env req h hk hr
      refine ⟨c, hc, ?_, ?_⟩
      · simp [hran, hk, contains, allowedKeys]
      · simp [hran, hk]
    · obtain ⟨c, hc, -, hran, -, -⟩ := handle_rejected env req hk
        (not_redirected_of_handler req h hr) (not_preflight_of_handler req h hr)
      refine ⟨c, hc, ?_, ?_⟩
      · simp [hran, hroute.1, hroute.2.1, hroute.2.2, contains_allowedKeys, hk]
      · simp [hran, hroute.1, hroute.2.1, hroute.2.2, hk]

/-- Witness of C2: `GET /ping` with the key `ELITE` sent as
`spitfire-api-key` reaches its handler, and the middleware is then the
identity on the next stage. -/
theorem C2_key_member_passes_witness :
    (mkRequest "/ping" .getPing [("spitfire-api-key", "ELITE")] PostInput.zero
      none).authenticated ∧
    (∃ c, handleHTTPRequest okEnv
        (mkRequest "/ping" .getPing [("spitfire-api-key", "ELITE")] PostInput.zero none)
          = some c ∧
      HandlerFunc.getPing ∈ c.ran) ∧
    ApiKeyAuthMiddleware some
        (Context.reset (mkRequest "/ping" .getPing [("spitfire-api-key", "ELITE")]
          PostInput.zero none))
      = some (Context.reset (mkRequest "/ping" .getPing [("spitfire-api-key", "ELITE")]
          PostInput.zero none)) := by
  have hw := C2_key_member_passes okEnv
    (mkRequest "/ping" .getPing [("spitfire-api-key", "ELITE")] PostInput.zero none)
  obtain ⟨c, hc, -, hiff⟩ := hw.2 .getPing rfl
  exact ⟨⟨by decide, by decide⟩, ⟨c, hc, hiff.mpr rfl⟩,
    hw.1 ⟨by decide, by decide⟩ some _ rfl⟩

/-- C9: the health handlers.  An authenticated `GET /` always gets 200 with
`message: Hello World!` and an authenticated `GET /ping` always gets 200
with `message: Server is running!`; each writes that single body, for every
store and clock, and neither calls the store. -/
theorem C9_health_handlers (env : Env) (req : Request) (ha : req.authenticated) :
    (req.route = .getRoot → ∃ c, handleHTTPRequest env req = some c ∧
      c.writer.status = 200 ∧ c.writer.body = [.H "message" "Hello World!"] ∧
      c.dbCalls = []) ∧
    (req.route = .getPing → ∃ c, handleHTTPRequest env req = some c ∧
      c.writer.status = 200 ∧ c.writer.body = [.H "message" "Server is running!"] ∧
      c.dbCalls = []) := by
  have hk := apiKey_of_authenticated req ha
  constructor
  · intro hr
    refine ⟨_, handle_getRoot env req hk hr, ?_, ?_, ?_⟩ <;>
    simp [finish, getRoot, entry, Context.reset, Context.JSON, Context.Status,
      ResponseWriter.WriteHeader, ResponseWriter.Write, ResponseWriter.WriteHeaderNow,
      bodyAllowedForStatus]
  · intro hr
    refine ⟨_, handle_getPing env req hk hr, ?_, ?_, ?_⟩ <;>
    simp [finish, getPing, entry, Context.reset, Context.JSON, Context.Status,
      ResponseWriter.WriteHeader, ResponseWriter.Write, ResponseWriter.WriteHeaderNow,
      bodyAllowedForStatus]

/-- Witness of C9: `GET /` and `GET /ping` with the key `ELITE`, on a store
that is down. -/
theorem C9_health_handlers_witness :
    (∃ c, handleHTTPRequest downEnv
        (mkRequest "/" .getRoot eliteHeader PostInput.zero none) = some c ∧
      c.writer.status = 200 ∧ c.writer.body = [.H "message" "Hello World!"] ∧
      c.dbCalls = []) ∧
    (∃ c, handleHTTPRequest downEnv
        (mkRequest "/ping" .getPing eliteHeader PostInput.zero none) = some c ∧
      c.writer.status = 200 ∧ c.writer.body = [.H "message" "Server is running!"] ∧
      c.dbCalls = []) :=
  ⟨(C9_health_handlers downEnv (mkRequest "/" .getRoot eliteHeader PostInput.zero none)
      ⟨by decide, by decide⟩).1 rfl,
   (C9_health_handlers downEnv (mkRequest "/ping" .getPing eliteHeader PostInput.zero none)
      ⟨by decide, by decide⟩).2 rfl⟩

/-- C10, refuted as stated: a `GET /ping/` with the key `ELITE` is answered
by the trailing-slash redirect, and an `OPTIONS /posts` preflight by the
`cors` stage; in neither does the Logger run, and nothing is printed. -/
theorem C10_not_every_request_is_logged :
    (∃ c, handleHTTPRequest okEnv
        (mkRequest "/ping/" (.tsr "GET") eliteHeader PostInput.zero none) = some c ∧
      c.writer.status = 301 ∧ HandlerFunc.Logger ∉ c.ran ∧ c.stdout = []) ∧
    (∃ c, handleHTTPRequest okEnv
        (mkRequest "/posts" (.noRoute "OPTIONS")
          [("Origin", "http://example.com"), ("SPITFIRE-API-KEY", "ELITE")]
          PostInput.zero none) = some c ∧
      c.writer.status = 204 ∧ HandlerFunc.Logger ∉ c.ran ∧ c.stdout = []) :=
  ⟨⟨_, rfl, rfl, by decide, rfl⟩, ⟨_, rfl, rfl, by decide, rfl⟩⟩

/-- C10, amended: the Logger is a pure observer.  It always runs the rest of
the chain, and its result is the downstream result with exactly three lines
appended to the output, in this order: the latency, the request path and
the status of the response; nothing else changes.  For every request that
reaches the Logger, that is, one that is neither answered by the
trailing-slash redirect nor a preflight answered by the `cors` stage, the
handlers run in the order cors, Logger, ApiKeyAuthMiddleware, route handler
(the latter only when the key is accepted and the request has a route), and
the output is those three lines, the status being the one of the final
response, also after the 401 short-circuit.  On the other requests the
Logger does not run and nothing is printed. -/
theorem C10_logger_is_observer (env : Env) (req : Request) :
    (∀ (clock : Clock) (next : Context → Option Context) (c : Context),
      Logger clock next c = (next c).map fun c1 =>
        { c1 with stdout := c1.stdout ++ [.latency (clock.since clock.now),
            .route c1.request.path, .status c1.writer.status] }) ∧
    (¬ req.redirected → ¬ req.preflight →
      ∃ c, handleHTTPRequest env req = some c ∧
        c.ran = [.cors, .Logger, .ApiKeyAuthMiddleware] ++
          (if contains allowedKeys req.apiKey then req.route.handler.toList else []) ∧
        c.stdout = [.latency (env.clock.since env.clock.now), .route req.path,
          .status c.writer.status]) ∧
    (req.redirected ∨ req.preflight →
      ∃ c, handleHTTPRequest env req = some c ∧ .Logger ∉ c.ran ∧ c.stdout = []) := by
  refine ⟨?_, ?_, ?_⟩
  · intro clock next c
    unfold Logger
    cases next c <;> simp [printf]
  · intro hr hp
    by_cases hk : req.apiKey = "ELITE"
    · have hc : contains allowedKeys req.apiKey = true := (contains_allowedKeys _).mpr hk
      cases hh : req.route.handler with
      | none =>
        obtain ⟨c, hres, hw, hran, -, hout⟩ := handle_noRoute env req hk hh hr hp
        exact ⟨c, hres, by simp [hran, hc], by rw [hout, hw]⟩
      | some h =>
        obtain ⟨c, hres, hran, hout⟩ := handle_accepted_trace env req h hk hh
        exact ⟨c, hres, by simp [hran, hc], hout⟩
    · have hc : ¬ contains allowedKeys req.apiKey = true :=
        fun e => hk ((contains_allowedKeys _).mp e)
      obtain ⟨c, hres, hw, hran, -, hout⟩ := handle_rejected env req hk hr hp
      exact ⟨c, hres, by simp [hran, hc], by rw [hout, hw]⟩
  · intro h
    by_cases hr : req.redirected
    · obtain ⟨c, hc, -, hran, -, hout⟩ := handle_redirected env req hr
      exact ⟨c, hc, by simp [hran], hout⟩
    · have hp : req.preflight := h.resolve_left hr
      obtain ⟨c, hc, -, hran, -, hout⟩ := handle_preflight env req hr hp
      exact ⟨c, hc, by simp [hran], hout⟩

/-- Witness of C10: `POST /posts` with the key `ELITE` and the title
`Hello` on a working store prints the latency 7, the path and the status
200 after the four handlers have run. -/
theorem C10_logger_is_observer_witness :
    ∃ c, handleHTTPRequest okEnv
        (mkRequest "/posts" .postPosts eliteHeader ⟨"Hello", false, ""⟩ none) = some c ∧
      c.ran = [.cors, .Logger, .ApiKeyAuthMiddleware, .postPosts] ∧
      c.stdout = [.latency 7, .route "/posts", .status 200] := by
  obtain ⟨c, hc, hran, hout⟩ := (C10_logger_is_observer okEnv
    (mkRequest "/posts" .postPosts eliteHeader ⟨"Hello", false, ""⟩ none)).2.1
    (not_redirected_of_handler _ .postPosts rfl) (not_preflight_of_handler _ .postPosts rfl)
  have hs : c.writer.status = 200 := by
    have h2 : handleHTTPRequest okEnv
        (mkRequest "/posts" .postPosts eliteHeader ⟨"Hello", false, ""⟩ none)
          = some _ := rfl
    rw [h2] at hc
    cases hc
    rfl
  refine ⟨c, hc, ?_, ?_⟩
  · rw [hran]
    rfl
  · rw [hout, hs]
    rfl

/-- C3: an authenticated `POST /posts` or `PUT /posts/:id` whose decoded
title is the empty string gets status 400 and the store is never called,
whether the body decoded or not. -/
theorem C3_empty_title_never_stored (env : Env) (req : Request) (ha : req.authenticated)
    (hr : req.route = .postPosts ∨ req.route = .putPostsId)
    (ht : req.decoded.Title = "") :
    ∃ c, handleHTTPRequest env req = some c ∧ c.writer.status = 400 ∧ c.dbCalls = [] := by
  have hk := apiKey_of_authenticated req ha
  rcases hr with hr | hr
  · refine ⟨_, handle_postPosts env req hk hr, ?_, ?_⟩ <;>
    cases hd : req.decodeErr <;>
    simp [finish, postPosts, entry, Context.reset, Context.BindJSON, Context.AbortWithStatus,
      Context.Abort, Context.JSON, Context.Status, ResponseWriter.WriteHeader,
      ResponseWriter.Write, ResponseWriter.WriteHeaderNow, bodyAllowedForStatus, hd, ht]
  · refine ⟨_, handle_putPostsId env req hk hr, ?_, ?_⟩ <;>
    cases hd : req.decodeErr <;>
    simp [finish, putPostsId, entry, Context.reset, Context.BindJSON, Context.AbortWithStatus,
      Context.Abort, Context.JSON, Context.Status, ResponseWriter.WriteHeader,
      ResponseWriter.Write, ResponseWriter.WriteHeaderNow, bodyAllowedForStatus, hd, ht]

/-- Witness of C3: a `POST /posts` whose body fails to decode and leaves
the input zero-valued, and a `PUT /posts/42` whose body has an empty title. -/
theorem C3_empty_title_never_stored_witness :
    (∃ c, handleHTTPRequest okEnv
        (mkRequest "/posts" .postPosts eliteHeader PostInput.zero (some "EOF")) = some c ∧
      c.writer.status = 400 ∧ c.dbCalls = []) ∧
    (∃ c, handleHTTPRequest okEnv
        (mkRequest "/posts/42" .putPostsId eliteHeader ⟨"", true, "d"⟩ none) = some c ∧
      c.writer.status = 400 ∧ c.dbCalls = []) :=
  ⟨C3_empty_title_never_stored okEnv
      (mkRequest "/posts" .postPosts eliteHeader PostInput.zero (some "EOF"))
      ⟨by decide, by decide⟩ (Or.inl rfl) rfl,
   C3_empty_title_never_stored okEnv
      (mkRequest "/posts/42" .putPostsId eliteHeader ⟨"", true, "d"⟩ none)
      ⟨by decide, by decide⟩ (Or.inr rfl) rfl⟩

/-- C4, evaluated at a failing input: an authenticated `POST /posts` whose
body fails to decode after the title `x` was stored in the input.  The
handler writes the 400 error body, then calls the store's create operation
and writes a second body, the created post. -/
theorem C4_create_goes_on_after_decode_error :
    ∃ c, handleHTTPRequest okEnv
        (mkRequest "/posts" .postPosts eliteHeader ⟨"x", false, ""⟩
          (some unmarshalTypeError)) = some c ∧
      c.writer.body = [.H "error" unmarshalTypeError, .post (some ⟨"p1", "x", false, ""⟩)] ∧
      c.dbCalls = [.createOne "x" false ""] :=
  ⟨_, rfl, rfl, rfl⟩

/-- C5, evaluated at a failing input: an authenticated `GET /posts` on a
store whose find-all fails.  The handler writes the 500 error body and then
a second body, the (empty) list. -/
theorem C5_list_writes_twice_on_store_error :
    ∃ c, handleHTTPRequest downEnv
        (mkRequest "/posts" .getPosts eliteHeader PostInput.zero none) = some c ∧
      c.writer.body = [.H "error" "db down", .posts []] :=
  ⟨_, rfl, rfl⟩

/-- C6, evaluated at a failing input: an authenticated `DELETE /posts/42`
on a store whose delete fails.  The handler writes the 500 error body and
then a second body, the nil post. -/
theorem C6_delete_writes_twice_on_store_error :
    ∃ c, handleHTTPRequest downEnv
        (mkRequest "/posts/42" .deletePostsId eliteHeader PostInput.zero none) = some c ∧
      c.writer.body = [.H "error" "db down", .post none] ∧
      c.dbCalls = [.findUniqueDelete "42"] :=
  ⟨_, rfl, rfl, rfl⟩

/-- C7, evaluated at a failing input: an authenticated `POST /posts` with
the title `Hello` on a store whose create fails.  The store is called once
with the decoded fields; the handler writes the 500 error body and then a
second body, the nil post. -/
theorem C7_create_writes_twice_on_store_error :
    ∃ c, handleHTTPRequest downEnv
        (mkRequest "/posts" .postPosts eliteHeader ⟨"Hello", false, ""⟩ none) = some c ∧
      c.writer.body = [.H "error" "db down", .post none] ∧
      c.dbCalls = [.createOne "Hello" false ""] :=
  ⟨_, rfl, rfl, rfl⟩

/-- C8: an authenticated `PUT /posts/:id` writes exactly one body on every
path.  A decode failure gives 400 with the decoder's message and an empty
title gives 400 with `title cannot be empty`, both without a store call.
Otherwise the store's find-by-id-then-update is called once, with the path
id and the three decoded fields; its error gives 500 with the error message
and its success gives 200 with the post it returned. -/
theorem C8_update_writes_one_body (env : Env) (req : Request) (ha : req.authenticated)
    (hr : req.route = .putPostsId) :
    ∃ c, handleHTTPRequest env req = some c ∧ c.writer.body.length = 1 ∧
      (∀ e, req.decodeErr = some e →
        c.writer.status = 400 ∧ c.writer.body = [.H "error" e] ∧ c.dbCalls = []) ∧
      (req.decodeErr = none → req.decoded.Title = "" →
        c.writer.status = 400 ∧ c.writer.body = [.H "error" "title cannot be empty"] ∧
        c.dbCalls = []) ∧
      (req.decodeErr = none → req.decoded.Title ≠ "" →
        c.dbCalls = [.findManyUpdate ((req.params.lookup "id").getD "") req.decoded.Title
          req.decoded.Published req.decoded.Description] ∧
        (∀ e, (env.client.findManyUpdate ((req.params.lookup "id").getD "") req.decoded.Title
            req.decoded.Published req.decoded.Description).2 = some e →
          c.writer.status = 500 ∧ c.writer.body = [.H "error" e]) ∧
        ((env.client.findManyUpdate ((req.params.lookup "id").getD "") req.decoded.Title
            req.decoded.Published req.decoded.Description).2 = none →
          c.writer.status = 200 ∧
          c.writer.body = [.post (env.client.findManyUpdate ((req.params.lookup "id").getD "")
            req.decoded.Title req.decoded.Published req.decoded.Description).1])) := by
  have hk := apiKey_of_authenticated req ha
  refine ⟨_, handle_putPostsId env req hk hr, ?_⟩
  cases hd : req.decodeErr <;>
  by_cases ht : req.decoded.Title = "" <;>
  cases he : (env.client.findManyUpdate ((req.params.lookup "id").getD "") req.decoded.Title
    req.decoded.Published req.decoded.Description).2 <;>
  simp [finish, putPostsId, entry, Context.reset, Context.BindJSON, Context.AbortWithStatus,
    Context.Abort, Context.JSON, Context.Status, Context.exec, Context.Param,
    ResponseWriter.WriteHeader, ResponseWriter.Write, ResponseWriter.WriteHeaderNow,
    bodyAllowedForStatus, hd, ht, he]

/-- Witness of C8: `PUT /posts/42` with the title `B`, on a working store
and on a store that is down. -/
theorem C8_update_writes_one_body_witness :
    (∃ c, handleHTTPRequest okEnv
        (mkRequest "/posts/42" .putPostsId eliteHeader ⟨"B", true, "d"⟩ none) = some c ∧
      c.writer.status = 200 ∧ c.writer.body = [.post (some ⟨"42", "B", true, "d"⟩)] ∧
      c.dbCalls = [.findManyUpdate "42" "B" true "d"]) ∧
    (∃ c, handleHTTPRequest downEnv
        (mkRequest "/posts/42" .putPostsId eliteHeader ⟨"B", true, "d"⟩ none) = some c ∧
      c.writer.status = 500 ∧ c.writer.body = [.H "error" "db down"]) := by
  obtain ⟨c, hc, -, -, -, h3⟩ := C8_update_writes_one_body okEnv
    (mkRequest "/posts/42" .putPostsId eliteHeader ⟨"B", true, "d"⟩ none)
    ⟨by decide, by decide⟩ rfl
  obtain ⟨d, hd, -, -, -, k3⟩ := C8_update_writes_one_body downEnv
    (mkRequest "/posts/42" .putPostsId eliteHeader ⟨"B", true, "d"⟩ none)
    ⟨by decide, by decide⟩ rfl
  obtain ⟨hcalls, -, hok⟩ := h3 rfl (by decide)
  obtain ⟨-, herr, -⟩ := k3 rfl (by decide)
  exact ⟨⟨c, hc, (hok rfl).1, (hok rfl).2, hcalls⟩, ⟨d, hd, herr "db down" rfl⟩⟩

end GinCrud
